import Mathlib

/-!
# Verification of the vote service core (`vote/app.py`)

A shallow embedding of the vote-ingestion and tally-reading core of the
voting application, together with proofs of the specified properties.

The embedded functions follow `vote/app.py`:

* `get_vote_stats` (lines 53–110): ledger-first tally with queue fallback;
* the POST branch of the `vote` route (lines 122–142): vote submission;
* the voter-id assignment in the `vote` route (lines 115–117);
* `health_check` (lines 196–207).

External effects (the PostgreSQL ledger, the Redis queue, the random number
generator, the request context) are passed in as explicit state values, and
Python exceptions are modelled with `Except`.
-/

namespace VoteApp

/-- A JSON value, as produced by `json.loads`.  Object fields are kept in
textual order; `json.loads` keeps the *last* occurrence of a duplicated key,
which `objGet` accounts for. -/
inductive JsonVal where
  | jNull
  | jBool (b : Bool)
  | jNum (n : Int)
  | jStr (s : String)
  | jArr (xs : List JsonVal)
  | jObj (fields : List (String × JsonVal))

/-- Python dict lookup `d.get(k)` on a decoded JSON object: the value of
the last binding of `k`, or `none` (Python `None`) when the key is
absent. -/
def objGet (fields : List (String × JsonVal)) (k : String) : Option JsonVal :=
  (fields.reverse.find? (fun f => f.1 == k)).map (fun f => f.2)

/-- Does the JSON value equal the Python string `s`?  (Used for
`vote.get('vote') in ['a', 'b']`: only a JSON string can compare equal to a
Python string.) -/
def JsonVal.isStrEq : JsonVal → String → Bool
  | jStr t, s => t == s
  | _, _ => false

/-- One raw element of the Redis list `votes`, as seen through
`json.loads(entry.decode('utf-8'))`: `none` when decoding raises
`JSONDecodeError` or `UnicodeDecodeError`, otherwise the decoded value. -/
abbrev QueueEntry : Type := Option JsonVal

/-- State of the PostgreSQL ledger as observed by `get_vote_stats`:
either the connection/query raises, or the grouped count query
`SELECT vote, COUNT(*) FROM votes GROUP BY vote` returns its rows. -/
inductive LedgerState where
  | down
  | rows (rs : List (String × Nat))

/-- State of the Redis queue as observed by `get_vote_stats`:
`get_redis()` returned `None`, or `lrange` raised, or `lrange` returned
the list of raw entries. -/
inductive QueueState where
  | noConn
  | readError
  | entries (es : List QueueEntry)

/-- Which return site of `get_vote_stats` produced the numbers.  The Python
dict itself carries no such tag; this component annotates the branch taken
(the spec's `source` provenance). -/
inductive Source where
  | LEDGER
  | QUEUE
  | UNAVAILABLE
deriving DecidableEq

/-- The dict returned by `get_vote_stats`: keys `'a'`, `'b'`, `'total'`. -/
structure Stats where
  a : Nat
  b : Nat
  total : Nat
deriving DecidableEq

/-- The ledger loop (lines 68–71): start from `{'a': 0, 'b': 0}` and, for
each row, assign the row's count to its option when the option is `'a'` or
`'b'`, ignoring any other row. -/
def ledgerFold (c : Nat × Nat) : List (String × Nat) → Nat × Nat
  | [] => c
  | r :: rs =>
      ledgerFold
        (if r.1 = "a" then (r.2, c.2)
         else if r.1 = "b" then (c.1, r.2)
         else c) rs

/-- The body of the Redis loop (lines 94–100) for one entry, acting on the
running counts.  A raw entry that fails to decode is skipped (`continue`).
A decoded object contributes to a count when its `vote` field is the string
`'a'` or `'b'` and is otherwise ignored.  A decoded non-object raises
`AttributeError` at `vote.get('vote')`, which the inner
`except (JSONDecodeError, UnicodeDecodeError)` does not catch. -/
def entryStep (c : Nat × Nat) (e : QueueEntry) : Except Unit (Nat × Nat) :=
  match e with
  | none => .ok c
  | some (.jObj fields) =>
      match objGet fields "vote" with
      | some v =>
          if v.isStrEq "a" then .ok (c.1 + 1, c.2)
          else if v.isStrEq "b" then .ok (c.1, c.2 + 1)
          else .ok c
      | none => .ok c
  | some _ => .error ()

/-- The Redis loop of lines 94–100: process the entries in order; an
uncaught exception aborts the loop (and is caught only by the outer
`except Exception` of line 108). -/
def tallyLoop (c : Nat × Nat) : List QueueEntry → Except Unit (Nat × Nat)
  | [] => .ok c
  | e :: es =>
      match entryStep c e with
      | .ok c' => tallyLoop c' es
      | .error u => .error u

/-- Function `get_vote_stats` (lines 53–110).  Try the ledger; on any exception fall
back to Redis; if `get_redis()` returned `None` or anything in the Redis
block raises, return zero counts.  The result is paired with the `Source`
tag recording which return site produced it.  The `Except` codomain records
that a Python exception could in principle propagate to the caller; every
branch in fact returns. -/
def get_vote_stats (led : LedgerState) (q : QueueState) :
    Except Unit (Stats × Source) :=
  match led with
  | .rows rs =>
      let c := ledgerFold (0, 0) rs
      .ok (⟨c.1, c.2, c.1 + c.2⟩, .LEDGER)
  | .down =>
      match q with
      | .noConn => .ok (⟨0, 0, 0⟩, .UNAVAILABLE)
      | .readError => .ok (⟨0, 0, 0⟩, .UNAVAILABLE)
      | .entries es =>
          match tallyLoop (0, 0) es with
          | .ok c => .ok (⟨c.1, c.2, c.1 + c.2⟩, .QUEUE)
          | .error _ => .ok (⟨0, 0, 0⟩, .UNAVAILABLE)

/-- Is the entry counted toward option `o` by the Redis loop: it decodes to
an object whose `vote` field is the string `o`. -/
def isVoteFor (o : String) (e : QueueEntry) : Bool :=
  match e with
  | some (.jObj fields) =>
      match objGet fields "vote" with
      | some v => v.isStrEq o
      | none => false
  | _ => false

/-! ## Voter-id assignment (lines 115–117)

```
voter_id = request.cookies.get('voter_id')
if not voter_id:
    voter_id = hex(random.getrandbits(64))[2:-1]
```
-/

/-- Python `hex(n)[2:-1]`: the hexadecimal digits of `n` (lowercase, no leading
zeros, `"0"` for `0`, exactly as Python's `hex` after stripping the `0x`
prefix) with the **last character removed** by the `-1` slice bound. -/
def genToken (n : Nat) : String :=
  ((Nat.toDigits 16 n).dropLast).asString

/-- The voter-id assignment: reuse the cookie when it is present and truthy
(a non-empty string); otherwise generate a token from a fresh
`random.getrandbits(64)` value `rand`. -/
def ensureVoterId (cookie : Option String) (rand : Nat) : String :=
  match cookie with
  | some s => if s ≠ "" then s else genToken rand
  | none => genToken rand

/-! ## Vote submission: the POST branch of the `vote` route (lines 122–142) -/

/-- State of the Redis queue as observed by the submit path: `get_redis()`
either returns `None` (connection or ping failed) or a live connection on
which `rpush` will either succeed or raise. -/
inductive QueueConn where
  | unreachable
  | reachable (pushOk : Bool)
deriving DecidableEq

/-- Is a connection object returned (`if redis:` truthy)? -/
def QueueConn.up : QueueConn → Bool
  | .unreachable => false
  | .reachable _ => true

/-- The record `json.dumps`-ed and pushed onto the `votes` list. -/
structure VoteRecord where
  voter_id : String
  vote : String
  timestamp : String
deriving DecidableEq

/-- Observable outcome of one POST to the `vote` route: the `vote` and
`error_message` values that reach the response, the number of `rpush`
calls made, and the records actually appended to the queue. -/
structure SubmitResult where
  vote : Option String
  error : Option String
  attempts : Nat
  appended : List VoteRecord
deriving DecidableEq

/-- The POST branch of the `vote` route (lines 122–142).  `opt` is
`request.form.get('vote')` (`none` when the field is absent).  The store
is consulted first: with no connection the handler sets the
service-unavailable message without looking at the option.  With a
connection, a valid option is pushed (one `rpush` call; if it raises, the
failure message is set and nothing is appended, though `vote` was already
assigned); an invalid option sets the invalid-option message and never
reaches `rpush`. -/
def votePost (opt : Option String) (conn : QueueConn) (voterId now : String) :
    SubmitResult :=
  match conn with
  | .unreachable =>
      ⟨none, some "Service temporarily unavailable. Please try again.", 0, []⟩
  | .reachable pushOk =>
      if opt = some "a" ∨ opt = some "b" then
        let data : VoteRecord := ⟨voterId, opt.getD "", now⟩
        if pushOk then ⟨opt, none, 1, [data]⟩
        else ⟨opt, some "Failed to record vote. Please try again.", 1, []⟩
      else ⟨none, some "Invalid vote option", 0, []⟩

/-- The spec's submission-error taxonomy (§7). -/
inductive SubmissionError where
  | InvalidOption
  | StoreUnavailable
deriving DecidableEq

/-- Modelled from the spec: the transport layer's mapping of the handler's
`error_message` strings onto the spec's `SubmissionError` taxonomy (§6/§7),
which the Python handler leaves implicit in its message texts.
`"Invalid vote option"` is the validation failure; both store-failure
messages are `StoreUnavailable`; no message means success. -/
def errKind (r : SubmitResult) : Option SubmissionError :=
  match r.error with
  | none => none
  | some m =>
      if m = "Invalid vote option" then some .InvalidOption
      else some .StoreUnavailable

/-! ## `health_check` (lines 196–207) -/

/-- The JSON object returned by `health_check`. -/
structure HealthReport where
  status : String
  redis : String
  hostname : String
  timestamp : String
deriving DecidableEq

/-- Function `health_check` (lines 196–207): call `get_redis()` and report
`"connected"` or `"disconnected"`; the status is the constant
`"healthy"`.  The ledger state `led` is part of the process environment
(the handler could query PostgreSQL the way `get_vote_stats` does) but the
code never touches it. -/
def health_check (conn : QueueConn) (led : LedgerState)
    (host now : String) : HealthReport :=
  ⟨"healthy", if conn.up then "connected" else "disconnected", host, now⟩

/-! ## Helper lemmas -/

/-- The ledger loop leaves the `'a'` count at its starting value when no row
is an `'a'` row. -/
theorem ledgerFold_fst_of_no_a :
    ∀ (rs : List (String × Nat)) (c : Nat × Nat),
      (∀ r ∈ rs, r.1 ≠ "a") → (ledgerFold c rs).1 = c.1 := by
  intro rs
  induction rs with
  | nil => intro c _; rfl
  | cons r rs ih =>
    intro c h
    have hr : r.1 ≠ "a" := h r (List.mem_cons_self r rs)
    have hrs : ∀ x ∈ rs, x.1 ≠ "a" := fun x hx => h x (List.mem_cons_of_mem r hx)
    by_cases hb : r.1 = "b" <;> simp [ledgerFold, hr, hb, ih _ hrs]

/-- The ledger loop leaves the `'b'` count at its starting value when no row
is a `'b'` row. -/
theorem ledgerFold_snd_of_no_b :
    ∀ (rs : List (String × Nat)) (c : Nat × Nat),
      (∀ r ∈ rs, r.1 ≠ "b") → (ledgerFold c rs).2 = c.2 := by
  intro rs
  induction rs with
  | nil => intro c _; rfl
  | cons r rs ih =>
    intro c h
    have hr : r.1 ≠ "b" := h r (List.mem_cons_self r rs)
    have hrs : ∀ x ∈ rs, x.1 ≠ "b" := fun x hx => h x (List.mem_cons_of_mem r hx)
    by_cases ha : r.1 = "a" <;> simp [ledgerFold, hr, ha, ih _ hrs]

/-- When at most one row is an `'a'` row (as a grouped count query
guarantees), the `'a'` count produced by the ledger loop is the count of
that row, or the starting value when there is none. -/
theorem ledgerFold_fst_eq_find (rs : List (String × Nat)) :
    ∀ c : Nat × Nat, rs.countP (fun r => r.1 == "a") ≤ 1 →
      (ledgerFold c rs).1 =
        ((rs.find? (fun r => r.1 == "a")).map Prod.snd).getD c.1 := by
  induction rs with
  | nil => intro c _; rfl
  | cons r rs ih =>
    intro c h
    rw [List.countP_cons] at h
    by_cases hr : r.1 = "a"
    · have hra : (r.1 == "a") = true := by simp [hr]
      simp [hra] at h
      have hno : ∀ x ∈ rs, x.1 ≠ "a" := fun x hx => h x.1 x.2 hx
      have hfind : List.find? (fun x => x.1 == "a") (r :: rs) = some r := by
        simp [List.find?, hra]
      rw [hfind]
      simp [ledgerFold, hr]
      exact ledgerFold_fst_of_no_a rs _ hno
    · have hfa : (r.1 == "a") = false := by simp [hr]
      have h' : rs.countP (fun x => x.1 == "a") ≤ 1 := by
        rw [hfa] at h
        simpa using h
      have hfind : List.find? (fun x => x.1 == "a") (r :: rs) =
          List.find? (fun x => x.1 == "a") rs := by
        simp [List.find?, hfa]
      rw [hfind]
      by_cases hb : r.1 = "b" <;> simp [ledgerFold, hr, hb, ih _ h']

/-- When at most one row is a `'b'` row, the `'b'` count produced by the
ledger loop is the count of that row, or the starting value. -/
theorem ledgerFold_snd_eq_find (rs : List (String × Nat)) :
    ∀ c : Nat × Nat, rs.countP (fun r => r.1 == "b") ≤ 1 →
      (ledgerFold c rs).2 =
        ((rs.find? (fun r => r.1 == "b")).map Prod.snd).getD c.2 := by
  induction rs with
  | nil => intro c _; rfl
  | cons r rs ih =>
    intro c h
    rw [List.countP_cons] at h
    by_cases hr : r.1 = "b"
    · have hrb : (r.1 == "b") = true := by simp [hr]
      simp [hrb] at h
      have hno : ∀ x ∈ rs, x.1 ≠ "b" := fun x hx => h x.1 x.2 hx
      have hfind : List.find? (fun x => x.1 == "b") (r :: rs) = some r := by
        simp [List.find?, hrb]
      rw [hfind]
      have ha : r.1 ≠ "a" := by rw [hr]; decide
      simp [ledgerFold, hr, ha]
      exact ledgerFold_snd_of_no_b rs _ hno
    · have hfb : (r.1 == "b") = false := by simp [hr]
      have h' : rs.countP (fun x => x.1 == "b") ≤ 1 := by
        rw [hfb] at h
        simpa using h
      have hfind : List.find? (fun x => x.1 == "b") (r :: rs) =
          List.find? (fun x => x.1 == "b") rs := by
        simp [List.find?, hfb]
      rw [hfind]
      by_cases ha : r.1 = "a" <;> simp [ledgerFold, hr, ha, ih _ h']

/-- Rows whose option is neither `'a'` nor `'b'` can be dropped without
changing the ledger loop's result. -/
theorem ledgerFold_filter (rs : List (String × Nat)) :
    ∀ c : Nat × Nat,
      ledgerFold c (rs.filter fun r => r.1 == "a" || r.1 == "b") =
        ledgerFold c rs := by
  induction rs with
  | nil => intro c; rfl
  | cons r rs ih =>
    intro c
    by_cases ha : r.1 = "a"
    · simp [List.filter_cons, ha, ledgerFold, ih]
    · by_cases hb : r.1 = "b" <;>
        simp [List.filter_cons, ha, hb, ledgerFold, ih]

/-- The ledger loop is the identity on its accumulator when no row is an
`'a'` or `'b'` row. -/
theorem ledgerFold_of_no_ab (rs : List (String × Nat)) (c : Nat × Nat)
    (h : ∀ r ∈ rs, r.1 ≠ "a" ∧ r.1 ≠ "b") : ledgerFold c rs = c := by
  induction rs generalizing c with
  | nil => rfl
  | cons r rs ih =>
    have hr := h r (List.mem_cons_self r rs)
    have hrs : ∀ x ∈ rs, x.1 ≠ "a" ∧ x.1 ≠ "b" :=
      fun x hx => h x (List.mem_cons_of_mem r hx)
    simp only [ledgerFold, hr.1, hr.2, if_neg, if_false]
    exact ih _ hrs

/-- A JSON value equal to the string `"a"` is not equal to the string
`"b"`. -/
theorem isStrEq_a_not_b (v : JsonVal) (h : v.isStrEq "a" = true) :
    v.isStrEq "b" = false := by
  cases v <;> simp_all [JsonVal.isStrEq]

/-- Does the raw entry either fail to decode or decode to a JSON object?
Exactly the entries on which the body of the Redis loop does not raise. -/
def objOrUndecodable : QueueEntry → Bool
  | none => true
  | some (.jObj _) => true
  | some _ => false

/-- Unfolding the Redis loop by one entry whose processing succeeds. -/
theorem tallyLoop_cons_ok (c c' : Nat × Nat) (e : QueueEntry)
    (es : List QueueEntry) (h : entryStep c e = .ok c') :
    tallyLoop c (e :: es) = tallyLoop c' es := by
  simp [tallyLoop, h]

/-- When every entry either fails to decode or decodes to an object, the
Redis loop completes and adds to its accumulator the number of entries
voting for `'a'` and for `'b'` respectively. -/
theorem tallyLoop_ok (es : List QueueEntry) :
    ∀ c : Nat × Nat, (∀ e ∈ es, objOrUndecodable e = true) →
      tallyLoop c es =
        .ok (c.1 + es.countP (isVoteFor "a"), c.2 + es.countP (isVoteFor "b")) := by
  induction es with
  | nil => intro c _; simp [tallyLoop]
  | cons e es ih =>
    intro c h
    have he : objOrUndecodable e = true := h e (List.mem_cons_self e es)
    have hes : ∀ x ∈ es, objOrUndecodable x = true :=
      fun x hx => h x (List.mem_cons_of_mem e hx)
    match e with
    | none =>
      rw [tallyLoop_cons_ok c c none es rfl, ih _ hes]
      simp [List.countP_cons, isVoteFor]
    | some (.jObj fields) =>
      cases hg : objGet fields "vote" with
      | none =>
        rw [tallyLoop_cons_ok c c _ es (by simp [entryStep, hg]), ih _ hes]
        simp [List.countP_cons, isVoteFor, hg]
      | some v =>
        by_cases hva : v.isStrEq "a" = true
        · have hvb := isStrEq_a_not_b v hva
          rw [tallyLoop_cons_ok c (c.1 + 1, c.2) _ es
              (by simp [entryStep, hg, hva]), ih _ hes]
          simp only [List.countP_cons, isVoteFor, hg, hva, hvb,
            Except.ok.injEq, Prod.mk.injEq]
          refine ⟨by simp; omega, by simp⟩
        · by_cases hvb : v.isStrEq "b" = true
          · rw [tallyLoop_cons_ok c (c.1, c.2 + 1) _ es
                (by simp [entryStep, hg, hva, hvb]), ih _ hes]
            simp only [List.countP_cons, isVoteFor, hg, hva, hvb,
              Except.ok.injEq, Prod.mk.injEq]
            refine ⟨by simp, by simp; omega⟩
          · rw [tallyLoop_cons_ok c c _ es
                (by simp [entryStep, hg, hva, hvb]), ih _ hes]
            simp [List.countP_cons, isVoteFor, hg, hva, hvb]
    | some (.jNull) => simp [objOrUndecodable] at he
    | some (.jBool b) => simp [objOrUndecodable] at he
    | some (.jNum n) => simp [objOrUndecodable] at he
    | some (.jStr s) => simp [objOrUndecodable] at he
    | some (.jArr xs) => simp [objOrUndecodable] at he

/-- Unfolding `get_vote_stats` on the queue-fallback path. -/
theorem get_vote_stats_entries (es : List QueueEntry) :
    get_vote_stats .down (.entries es) =
      match tallyLoop (0, 0) es with
      | .ok c => .ok (⟨c.1, c.2, c.1 + c.2⟩, .QUEUE)
      | .error _ => .ok (⟨0, 0, 0⟩, .UNAVAILABLE) := rfl

/-! ## Claim theorems -/

/-- C1: with the ledger reachable and returning a grouped count per option
(a grouped query yields at most one row per option), `get_vote_stats`
returns the counts exactly as the ledger reported them — zero for an
option with no row — tagged `LEDGER`, and its result does not depend on
the queue-store contents in any way. -/
theorem C1_ledger_authoritative (rs : List (String × Nat)) (q q' : QueueState)
    (ha : rs.countP (fun r => r.1 == "a") ≤ 1)
    (hb : rs.countP (fun r => r.1 == "b") ≤ 1) :
    get_vote_stats (.rows rs) q = get_vote_stats (.rows rs) q' ∧
    get_vote_stats (.rows rs) q =
      .ok (⟨((rs.find? (fun r => r.1 == "a")).map Prod.snd).getD 0,
            ((rs.find? (fun r => r.1 == "b")).map Prod.snd).getD 0,
            ((rs.find? (fun r => r.1 == "a")).map Prod.snd).getD 0 +
              ((rs.find? (fun r => r.1 == "b")).map Prod.snd).getD 0⟩,
           .LEDGER) := by
  refine ⟨rfl, ?_⟩
  have h1 := ledgerFold_fst_eq_find rs (0, 0) ha
  have h2 := ledgerFold_snd_eq_find rs (0, 0) hb
  simp only [get_vote_stats, h1, h2]

/-- Witness for C1: ledger reporting `{a: 3, b: 5}` while the queue holds
a stale conflicting entry gives exactly `{a: 3, b: 5, total: 8}` from the
ledger. -/
theorem C1_ledger_authoritative_witness :
    ([("a", 3), ("b", 5)] : List (String × Nat)).countP
        (fun r => r.1 == "a") ≤ 1 ∧
    get_vote_stats (.rows [("a", 3), ("b", 5)])
        (.entries [some (.jObj [("vote", .jStr "b")])]) =
      .ok (⟨3, 5, 8⟩, .LEDGER) := by
  constructor
  · decide
  · have h := C1_ledger_authoritative [("a", 3), ("b", 5)]
      (.entries [some (.jObj [("vote", .jStr "b")])]) .noConn
      (by decide) (by decide)
    rw [h.2]
    rfl

/-- C2 is false as stated: with the ledger down and the queue holding a
well-formed `a` vote followed by an entry that decodes to the JSON string
`"garbage"` (valid JSON, but not an object), the call returns zero counts
rather than the tally of well-formed entries.  `vote.get('vote')` raises
`AttributeError`, which the inner `except (JSONDecodeError,
UnicodeDecodeError)` does not catch; the outer `except Exception`
discards the partial tally and returns zeros. -/
theorem C2_counterexample :
    get_vote_stats .down
        (.entries [some (.jObj [("vote", .jStr "a")]), some (.jStr "garbage")]) =
      .ok (⟨0, 0, 0⟩, .UNAVAILABLE) ∧
    ([some (.jObj [("vote", .jStr "a")]), some (.jStr "garbage")] :
        List QueueEntry).countP (isVoteFor "a") = 1 :=
  ⟨rfl, rfl⟩

/-- C2 (amended): every queue entry is decoded independently and an entry
that fails to decode is skipped — counted neither as `a` nor `b`, with no
error to the caller — so, provided every entry that does decode yields a
JSON object, the returned counts equal the number of well-formed entries
with option `a` and option `b` respectively, tagged `QUEUE`.  (An entry
decoding to a non-object JSON value instead aborts the queue tally: the
call still raises no error but returns zero counts.) -/
theorem C2_malformed_skipped (es : List QueueEntry)
    (h : ∀ e ∈ es, objOrUndecodable e = true) :
    get_vote_stats .down (.entries es) =
      .ok (⟨es.countP (isVoteFor "a"), es.countP (isVoteFor "b"),
            es.countP (isVoteFor "a") + es.countP (isVoteFor "b")⟩, .QUEUE) := by
  have ht := tallyLoop_ok es (0, 0) h
  rw [get_vote_stats_entries, ht]
  simp

/-- Witness for C2 (amended): the spec's own vector — queue
`[{"vote": "a"}, {"vote": "b"}, {"vote": "a"}, <undecodable>]` with the
ledger down tallies to `{a: 2, b: 1, total: 3}` from the queue. -/
theorem C2_malformed_skipped_witness :
    (∀ e ∈ ([some (.jObj [("vote", .jStr "a")]),
             some (.jObj [("vote", .jStr "b")]),
             some (.jObj [("vote", .jStr "a")]), none] : List QueueEntry),
        objOrUndecodable e = true) ∧
    get_vote_stats .down
        (.entries [some (.jObj [("vote", .jStr "a")]),
                   some (.jObj [("vote", .jStr "b")]),
                   some (.jObj [("vote", .jStr "a")]), none]) =
      .ok (⟨2, 1, 3⟩, .QUEUE) := by
  constructor
  · decide
  · rw [C2_malformed_skipped _ (by decide)]
    rfl

/-- C3: `get_vote_stats` never lets an exception reach its caller — every
combination of store states produces a returned snapshot — and when the
ledger is down and the queue store is unreachable (no connection, or the
read itself raising) the snapshot is zero counts tagged `UNAVAILABLE`. -/
theorem C3_never_raises (led : LedgerState) (q : QueueState) :
    (∃ r, get_vote_stats led q = .ok r) ∧
    (led = .down → (q = .noConn ∨ q = .readError) →
      get_vote_stats led q = .ok (⟨0, 0, 0⟩, .UNAVAILABLE)) := by
  constructor
  · cases led with
    | rows rs => exact ⟨_, rfl⟩
    | down =>
      cases q with
      | noConn => exact ⟨_, rfl⟩
      | readError => exact ⟨_, rfl⟩
      | entries es =>
        cases h : tallyLoop (0, 0) es with
        | ok c => exact ⟨_, by rw [get_vote_stats_entries, h]⟩
        | error u => exact ⟨_, by rw [get_vote_stats_entries, h]⟩
  · rintro rfl (rfl | rfl) <;> rfl

/-- Witness for C3: both stores unreachable yields
`{a: 0, b: 0, total: 0}` tagged `UNAVAILABLE`. -/
theorem C3_never_raises_witness :
    (QueueState.noConn = QueueState.noConn ∨
      QueueState.noConn = QueueState.readError) ∧
    get_vote_stats .down .noConn = .ok (⟨0, 0, 0⟩, .UNAVAILABLE) :=
  ⟨Or.inl rfl, (C3_never_raises .down .noConn).2 rfl (Or.inl rfl)⟩

/-- C4 is false as stated: an invalid option submitted while the queue
store is unreachable yields the store-unavailable error, not
`InvalidOption`, because the handler checks the connection before
validating the option. -/
theorem C4_counterexample :
    errKind (votePost (some "x") .unreachable "voter" "now") =
      some .StoreUnavailable ∧
    errKind (votePost (some "x") .unreachable "voter" "now") ≠
      some .InvalidOption :=
  ⟨rfl, by decide⟩

/-- C4 (amended): for every option not equal to `"a"` or `"b"` (including
absent, empty, and other casings) and every voter identifier, nothing is
ever appended and no `rpush` is attempted; when the queue connection is up
the result is `InvalidOption`, and when the store is unreachable the
result is `StoreUnavailable` instead. -/
theorem C4_invalid_option (opt : Option String) (conn : QueueConn)
    (voterId now : String) (hna : opt ≠ some "a") (hnb : opt ≠ some "b") :
    (votePost opt conn voterId now).appended = [] ∧
    (votePost opt conn voterId now).attempts = 0 ∧
    (conn.up = true →
      errKind (votePost opt conn voterId now) = some .InvalidOption) ∧
    (conn.up = false →
      errKind (votePost opt conn voterId now) = some .StoreUnavailable) := by
  have hv : ¬(opt = some "a" ∨ opt = some "b") := by
    rintro (h | h)
    · exact hna h
    · exact hnb h
  cases conn with
  | unreachable =>
    refine ⟨rfl, rfl, ?_, fun _ => rfl⟩
    intro h
    simp [QueueConn.up] at h
  | reachable pushOk =>
    refine ⟨?_, ?_, ?_, ?_⟩
    · simp [votePost, hv]
    · simp [votePost, hv]
    · intro _
      simp [votePost, hv, errKind]
    · intro h
      simp [QueueConn.up] at h

/-- Witness for C4 (amended): option `"x"` with a live connection is
rejected as `InvalidOption` with nothing appended. -/
theorem C4_invalid_option_witness :
    (some "x" ≠ (some "a" : Option String)) ∧
    (votePost (some "x") (.reachable true) "voter" "now").appended = [] ∧
    errKind (votePost (some "x") (.reachable true) "voter" "now") =
      some .InvalidOption := by
  refine ⟨by decide, ?_, ?_⟩
  · exact (C4_invalid_option (some "x") (.reachable true) "voter" "now"
      (by decide) (by decide)).1
  · exact (C4_invalid_option (some "x") (.reachable true) "voter" "now"
      (by decide) (by decide)).2.2.1 rfl

/-- C5 is false as stated: a valid option submitted while the store is
unreachable makes zero `rpush` attempts, not exactly one — the handler
never reaches the append when `get_redis()` returns `None`. -/
theorem C5_counterexample :
    (votePost (some "a") .unreachable "voter" "now").attempts = 0 ∧
    (votePost (some "a") .unreachable "voter" "now").attempts ≠ 1 :=
  ⟨rfl, by decide⟩

/-- C5 (amended): for every valid option, a failed append — store
unreachable or the `rpush` raising — yields the store-unavailable error,
never success, and appends nothing; there is at most one append attempt
per call, exactly one whenever a connection was obtained and zero when the
store is unreachable. -/
theorem C5_store_failure (opt : Option String) (conn : QueueConn)
    (voterId now : String) (hopt : opt = some "a" ∨ opt = some "b") :
    (votePost opt conn voterId now).attempts ≤ 1 ∧
    (conn.up = true → (votePost opt conn voterId now).attempts = 1) ∧
    (conn.up = false → (votePost opt conn voterId now).attempts = 0) ∧
    (conn ≠ .reachable true →
      errKind (votePost opt conn voterId now) = some .StoreUnavailable ∧
      (votePost opt conn voterId now).error ≠ none ∧
      (votePost opt conn voterId now).appended = []) := by
  cases conn with
  | unreachable =>
    refine ⟨Nat.zero_le 1, ?_, fun _ => rfl,
      fun _ => ⟨rfl, Option.some_ne_none _, rfl⟩⟩
    intro h
    simp [QueueConn.up] at h
  | reachable pushOk =>
    cases pushOk with
    | true =>
      refine ⟨?_, fun _ => ?_, ?_, ?_⟩
      · simp [votePost, if_pos hopt]
      · simp [votePost, if_pos hopt]
      · intro h
        simp [QueueConn.up] at h
      · intro h
        exact absurd rfl h
    | false =>
      refine ⟨?_, fun _ => ?_, ?_, fun _ => ⟨?_, ?_, ?_⟩⟩
      · simp [votePost, if_pos hopt]
      · simp [votePost, if_pos hopt]
      · intro h
        simp [QueueConn.up] at h
      · simp [votePost, if_pos hopt, errKind]
      · simp [votePost, if_pos hopt]
      · simp [votePost, if_pos hopt]

/-- Witness for C5 (amended): a valid `a` vote whose `rpush` raises ends
in `StoreUnavailable` after exactly one attempt. -/
theorem C5_store_failure_witness :
    ((some "a" : Option String) = some "a" ∨
      (some "a" : Option String) = some "b") ∧
    errKind (votePost (some "a") (.reachable false) "voter" "now") =
      some .StoreUnavailable ∧
    (votePost (some "a") (.reachable false) "voter" "now").attempts = 1 := by
  have h := C5_store_failure (some "a") (.reachable false) "voter" "now"
    (Or.inl rfl)
  exact ⟨Or.inl rfl, (h.2.2.2 (by decide)).1, h.2.1 rfl⟩

/-- C6: the claim's token shape contradicts the code.  `hex(n)[2:-1]`
drops the final hex digit and never zero-pads, so the generated token is
neither a fixed-length hex string nor carries 64 bits of entropy: the
token for `getrandbits` value `0` is empty, the token for the maximal
64-bit value has only 15 hex digits, and distinct 64-bit values collide
(`16` and `17` both map to `"1"`).  Reuse of an existing non-empty token
does hold. -/
theorem C6_token_truncated :
    ensureVoterId (some "deadbeef") 0 = "deadbeef" ∧
    ensureVoterId none 0 = "" ∧
    (ensureVoterId none (2 ^ 64 - 1)).length = 15 ∧
    (ensureVoterId none 255).length = 1 ∧
    ensureVoterId none 16 = ensureVoterId none 17 ∧
    (16 : Nat) ≠ 17 :=
  ⟨rfl, rfl, by rfl, rfl, rfl, by decide⟩

/-- C7 is false as stated: the health endpoint's output is identical
whether the ledger store is down or up — no `ledgerReachable` value is
probed from or reported about the ledger — and the status reads
`"healthy"` even when the queue store is unreachable too. -/
theorem C7_counterexample :
    health_check (.reachable true) .down "host" "now" =
      health_check (.reachable true) (.rows [("a", 1)]) "host" "now" ∧
    (health_check .unreachable .down "host" "now").status = "healthy" :=
  ⟨rfl, rfl⟩

/-- C7 (amended): `health_check` never throws and probes only the queue
store: the `redis` field is `"connected"` exactly when `get_redis()`
obtained a connection and `"disconnected"` otherwise (reported as data,
not as an error), the `status` field is always `"healthy"`, and the
output is independent of the ledger store, which is never probed. -/
theorem C7_health_queue_only (conn : QueueConn) (led led' : LedgerState)
    (host now : String) :
    health_check conn led host now = health_check conn led' host now ∧
    (health_check conn led host now).status = "healthy" ∧
    ((health_check conn led host now).redis = "connected" ↔
      conn.up = true) ∧
    ((health_check conn led host now).redis = "disconnected" ↔
      conn.up = false) := by
  cases conn <;> simp [health_check, QueueConn.up]

/-- C8: every snapshot produced by `get_vote_stats`, on every return path,
satisfies `total = a + b`. -/
theorem C8_total_invariant (led : LedgerState) (q : QueueState) :
    ∃ st src, get_vote_stats led q = .ok (st, src) ∧ st.total = st.a + st.b := by
  cases led with
  | rows rs => exact ⟨_, _, rfl, rfl⟩
  | down =>
    cases q with
    | noConn => exact ⟨_, _, rfl, rfl⟩
    | readError => exact ⟨_, _, rfl, rfl⟩
    | entries es =>
      cases h : tallyLoop (0, 0) es with
      | ok c =>
        refine ⟨⟨c.1, c.2, c.1 + c.2⟩, .QUEUE, ?_, rfl⟩
        rw [get_vote_stats_entries, h]
      | error u =>
        refine ⟨⟨0, 0, 0⟩, .UNAVAILABLE, ?_, rfl⟩
        rw [get_vote_stats_entries, h]

/-- C9: the reachability check precedes option validation — with the
queue store unreachable every option, valid or invalid, yields the
store-unavailable error and is never reported as `InvalidOption`. -/
theorem C9_store_check_first (opt : Option String) (voterId now : String) :
    errKind (votePost opt .unreachable voterId now) =
      some .StoreUnavailable ∧
    errKind (votePost opt .unreachable voterId now) ≠
      some .InvalidOption :=
  ⟨rfl, fun hcontra => SubmissionError.noConfusion (Option.some.inj hcontra)⟩

/-- C10: on the ledger path, rows whose option is neither `"a"` nor `"b"`
are silently excluded — dropping them changes nothing — and the counts
default to zero, so a ledger answer with no `a`/`b` rows yields the zero
snapshot tagged `LEDGER`. -/
theorem C10_ledger_ignores_other_rows (rs : List (String × Nat))
    (q : QueueState) :
    get_vote_stats (.rows (rs.filter fun r => r.1 == "a" || r.1 == "b")) q =
      get_vote_stats (.rows rs) q ∧
    ((∀ r ∈ rs, r.1 ≠ "a" ∧ r.1 ≠ "b") →
      get_vote_stats (.rows rs) q = .ok (⟨0, 0, 0⟩, .LEDGER)) := by
  constructor
  · simp only [get_vote_stats, ledgerFold_filter rs (0, 0)]
  · intro h
    simp only [get_vote_stats, ledgerFold_of_no_ab rs (0, 0) h]

/-- Witness for C10: a ledger answer consisting of one `"c"` row tallies
to zero counts from the ledger. -/
theorem C10_ledger_ignores_other_rows_witness :
    (∀ r ∈ ([("c", 7)] : List (String × Nat)), r.1 ≠ "a" ∧ r.1 ≠ "b") ∧
    get_vote_stats (.rows [("c", 7)]) .noConn = .ok (⟨0, 0, 0⟩, .LEDGER) :=
  ⟨by decide, (C10_ledger_ignores_other_rows [("c", 7)] .noConn).2 (by decide)⟩

end VoteApp
